import Mathlib

/-!
Verification of `model/gpt2_modeling.py` (GPT-2 model-parallel language model).

The file embeds the module shallowly:

* The forward passes of `GPT2Model` and `GPT2Model_C` are straight-line
  compositions of framework calls, so they are embedded symbolically: a
  tensor expression datatype `TExpr` has one constructor per framework
  primitive the source invokes, and each `forward` builds the expression the
  Python code builds.
* `__init__` bodies are embedded as sequences of attribute reads/assignments
  over the `self` object, with Python's AttributeError semantics for reading
  a never-assigned attribute.
* `gpt2_get_params_for_weight_decay_optimization` is embedded over an
  abstract list of submodules (the `named_modules()` traversal), each
  carrying its `_parameters` dictionary as an association list.
* `judge_name` is embedded over lists of characters with Python's substring
  containment.
* The model-parallel numeric semantics (vocabulary-sharded embedding,
  sharded logits, all-reduce and gather) live in the `mpu` package, which is
  part of the repository but not among the provided sources; they are
  modelled from the spec over integer matrices.
-/

/-- Which weight tensor a call of `F.linear` receives. The forward pass of
`GPT2Model` passes `self.word_embeddings.weight`; the other constructors
exist so that "uses exactly the word-embedding weight" is a contentful
statement. -/
inductive WeightRef where
  | wordEmbeddingsWeight : WeightRef
  | positionEmbeddingsWeight : WeightRef
  | namedParam : String → WeightRef
deriving DecidableEq

/-- Symbolic tensor expressions: one constructor per framework primitive
invoked by the forward passes in `gpt2_modeling.py`. -/
inductive TExpr where
  /-- an input tensor (forward argument) -/
  | var : String → TExpr
  /-- `self.word_embeddings(x)` — vocabulary-sharded embedding lookup -/
  | word_embeddings_lookup : TExpr → TExpr
  /-- `self.position_embeddings(x)` — replicated positional embedding lookup -/
  | position_embeddings_lookup : TExpr → TExpr
  /-- elementwise `+` -/
  | add : TExpr → TExpr → TExpr
  /-- `self.embedding_dropout(x)` -/
  | dropout : TExpr → TExpr
  /-- `self.transformer(x, attention_mask)` -/
  | transformer : TExpr → TExpr → TExpr
  /-- `mpu.copy_to_model_parallel_region(x)` -/
  | copy_to_model_parallel_region : TExpr → TExpr
  /-- `F.linear(x, weight)` with an optional bias argument (the source never
  passes one) -/
  | linearF : TExpr → WeightRef → Option WeightRef → TExpr
  /-- application of a `torch.nn.Linear` submodule: attribute name,
  in-features, out-features, input -/
  | denseLayer : String → ℕ → ℕ → TExpr → TExpr
  /-- `mpu.gather_from_model_parallel_region(x)` -/
  | gather_from_model_parallel_region : TExpr → TExpr
deriving DecidableEq

/-- The `GPT2Model` instance: its constructor arguments, as stored on the
object (the only one the forward pass reads is `parallel_output`). -/
structure GPT2Model where
  num_layers : ℕ
  vocab_size : ℕ
  hidden_size : ℕ
  num_attention_heads : ℕ
  embedding_dropout_prob : ℚ
  attention_dropout_prob : ℚ
  output_dropout_prob : ℚ
  max_sequence_length : ℕ
  checkpoint_activations : Bool
  checkpoint_num_layers : ℕ
  parallel_output : Bool

/-- `GPT2Model.forward`, line by line from the source. -/
def GPT2Model.forward (self : GPT2Model)
    (input_ids position_ids attention_mask : TExpr) : TExpr :=
  let words_embeddings := TExpr.word_embeddings_lookup input_ids
  let position_embeddings := TExpr.position_embeddings_lookup position_ids
  let embeddings := TExpr.add words_embeddings position_embeddings
  let embeddings2 := TExpr.dropout embeddings
  let transformer_output := TExpr.transformer embeddings2 attention_mask
  let transformer_output_parallel :=
    TExpr.copy_to_model_parallel_region transformer_output
  let logits_parallel :=
    TExpr.linearF transformer_output_parallel WeightRef.wordEmbeddingsWeight none
  if self.parallel_output then logits_parallel
  else TExpr.gather_from_model_parallel_region logits_parallel

/-- The `GPT2Model_C` instance: its constructor arguments as stored on the
object.  (Constructing one actually fails — see the `__init__` model below —
so this is the instance the constructor intends to build.) -/
structure GPT2Model_C where
  num_layers : ℕ
  vocab_size : ℕ
  hidden_size : ℕ
  num_labels : ℕ
  num_attention_heads : ℕ
  embedding_dropout_prob : ℚ
  attention_dropout_prob : ℚ
  output_dropout_prob : ℚ
  max_sequence_length : ℕ
  checkpoint_activations : Bool
  checkpoint_num_layers : ℕ
  parallel_output : Bool

/-- `GPT2Model_C.forward`, line by line from the source: after the
transformer and the region copy, `self.linear` (hidden → hidden) and
`self.classifier` (hidden → num_labels) replace the tied vocabulary
projection, which is commented out in the source. -/
def GPT2Model_C.forward (self : GPT2Model_C)
    (input_ids position_ids attention_mask : TExpr) : TExpr :=
  let words_embeddings := TExpr.word_embeddings_lookup input_ids
  let position_embeddings := TExpr.position_embeddings_lookup position_ids
  let embeddings := TExpr.add words_embeddings position_embeddings
  let embeddings2 := TExpr.dropout embeddings
  let transformer_output := TExpr.transformer embeddings2 attention_mask
  let transformer_output_parallel :=
    TExpr.copy_to_model_parallel_region transformer_output
  let pooler := TExpr.denseLayer "linear" self.hidden_size self.hidden_size
    transformer_output_parallel
  let gpt_classifier_output := TExpr.denseLayer "classifier" self.hidden_size
    self.num_labels pooler
  let logits_parallel := gpt_classifier_output
  if self.parallel_output then logits_parallel
  else TExpr.gather_from_model_parallel_region logits_parallel

/-- All `F.linear` calls occurring in an expression, with their weight and
bias arguments, in evaluation order. -/
def linearFCalls : TExpr → List (WeightRef × Option WeightRef)
  | TExpr.var _ => []
  | TExpr.word_embeddings_lookup x => linearFCalls x
  | TExpr.position_embeddings_lookup x => linearFCalls x
  | TExpr.add x y => linearFCalls x ++ linearFCalls y
  | TExpr.dropout x => linearFCalls x
  | TExpr.transformer x y => linearFCalls x ++ linearFCalls y
  | TExpr.copy_to_model_parallel_region x => linearFCalls x
  | TExpr.linearF x w b => linearFCalls x ++ [(w, b)]
  | TExpr.denseLayer _ _ _ x => linearFCalls x
  | TExpr.gather_from_model_parallel_region x => linearFCalls x

/-- All `torch.nn.Linear` submodule applications occurring in an expression
(attribute name, in-features, out-features), in evaluation order. -/
def denseLayerCalls : TExpr → List (String × ℕ × ℕ)
  | TExpr.var _ => []
  | TExpr.word_embeddings_lookup x => denseLayerCalls x
  | TExpr.position_embeddings_lookup x => denseLayerCalls x
  | TExpr.add x y => denseLayerCalls x ++ denseLayerCalls y
  | TExpr.dropout x => denseLayerCalls x
  | TExpr.transformer x y => denseLayerCalls x ++ denseLayerCalls y
  | TExpr.copy_to_model_parallel_region x => denseLayerCalls x
  | TExpr.linearF x _ _ => denseLayerCalls x
  | TExpr.denseLayer nm i o x => denseLayerCalls x ++ [(nm, i, o)]
  | TExpr.gather_from_model_parallel_region x => denseLayerCalls x

/-- One top-level statement of an `__init__` body: the `self.<attr>` reads
its right-hand side performs, in evaluation order, and the `self.<attr>` it
assigns (if any). -/
structure InitStmt where
  reads : List String
  assigns : Option String
deriving DecidableEq

/-- Runs an `__init__` body: a read of a `self` attribute that has not been
assigned raises `AttributeError` naming that attribute (the semantics of
`torch.nn.Module.__getattr__`); otherwise execution proceeds and returns the
attributes assigned, in order. -/
def runInit : List String → List InitStmt → Except String (List String)
  | env, [] => Except.ok env
  | env, stmt :: rest =>
    match stmt.reads.find? (fun a => !(env.contains a)) with
    | some a => Except.error a
    | none =>
      match stmt.assigns with
      | some t => runInit (env ++ [t]) rest
      | none => runInit env rest

/-- The body of `GPT2Model.__init__` (after the `super().__init__()` call):
each statement's `self` reads and its `self` assignment.  The fourth
statement is `init_method(self.position_embeddings.weight)`. -/
def GPT2Model.initStmts : List InitStmt :=
  [⟨[], some "parallel_output"⟩,
   ⟨[], some "word_embeddings"⟩,
   ⟨[], some "position_embeddings"⟩,
   ⟨["position_embeddings"], none⟩,
   ⟨[], some "embedding_dropout"⟩,
   ⟨[], some "transformer"⟩]

/-- The body of `GPT2Model_C.__init__` (after the `super().__init__()`
call).  The last two statements construct `self.linear` and
`self.classifier` and read `self.hidden_size` — an attribute no statement
ever assigns. -/
def GPT2Model_C.initStmts : List InitStmt :=
  [⟨[], some "parallel_output"⟩,
   ⟨[], some "word_embeddings"⟩,
   ⟨[], some "position_embeddings"⟩,
   ⟨["position_embeddings"], none⟩,
   ⟨[], some "embedding_dropout"⟩,
   ⟨[], some "transformer"⟩,
   ⟨["hidden_size", "hidden_size"], some "linear"⟩,
   ⟨["hidden_size"], some "classifier"⟩]

/-- The parameter names of `GPT2Model.__init__`, in order (excluding
`self`). -/
def GPT2Model.initParamNames : List String :=
  ["num_layers", "vocab_size", "hidden_size", "num_attention_heads",
   "embedding_dropout_prob", "attention_dropout_prob", "output_dropout_prob",
   "max_sequence_length", "checkpoint_activations", "checkpoint_num_layers",
   "parallel_output"]

/-- The parameter names of `GPT2Model_C.__init__`, in order (excluding
`self`). -/
def GPT2Model_C.initParamNames : List String :=
  ["num_layers", "vocab_size", "hidden_size", "num_labels",
   "num_attention_heads", "embedding_dropout_prob", "attention_dropout_prob",
   "output_dropout_prob", "max_sequence_length", "checkpoint_activations",
   "checkpoint_num_layers", "parallel_output"]

/-- The parameter names of `GPT2Model.forward`, in order (excluding
`self`). -/
def GPT2Model.forwardParamNames : List String :=
  ["input_ids", "position_ids", "attention_mask"]

/-- The parameter names of `GPT2Model_C.forward`, in order (excluding
`self`). -/
def GPT2Model_C.forwardParamNames : List String :=
  ["input_ids", "position_ids", "attention_mask"]

/-- Modelled from the spec: the constructor parameters the spec's external
interface section lists — layer count, vocabulary size, hidden size, head
count, the three dropout probabilities, max sequence length, the two
activation-checkpointing flags, and the output-parallelism flag — under the
names the source gives them. -/
def specListedCtorParamNames : List String :=
  ["num_layers", "vocab_size", "hidden_size", "num_attention_heads",
   "embedding_dropout_prob", "attention_dropout_prob", "output_dropout_prob",
   "max_sequence_length", "checkpoint_activations", "checkpoint_num_layers",
   "parallel_output"]

/-- Python's `sub in s` substring containment on strings as character
lists. -/
def pyIn (sub s : List Char) : Bool := decide (sub <:+: s)

/-- `judge_name`, line by line from the source: `False` if `"embedding"` is
a substring of the name, `False` if `str(i)` is a substring for some
`i < 28`, else `True`. -/
def judge_name (name : List Char) : Bool :=
  if pyIn "embedding".toList name then false
  else if (List.range 28).any (fun i => pyIn (toString i).toList name) then false
  else true

/-- One entry of a `named_modules()` traversal: whether the submodule is a
`LayerNorm` (`mpu.LayerNorm` or `torch.nn.LayerNorm`), and its own
`_parameters` dictionary — names paired with optional parameters
(parameters are identified by natural numbers; `none` is Python's `None`
entry). -/
structure PyModule where
  isLayerNorm : Bool
  params : List (String × Option ℕ)
deriving DecidableEq

/-- An optimizer parameter group: the `params` list and the optional
`weight_decay` override key of the dictionary. -/
structure PyParamGroup where
  params : List ℕ
  weight_decay : Option ℚ
deriving DecidableEq

/-- `[p for n, p in list(module_._parameters.items()) if p is not None]`. -/
def lnSelect (m : PyModule) : List ℕ :=
  m.params.filterMap (fun np => np.2)

/-- `[p for n, p in ... if p is not None and n != 'bias']`. -/
def wdSelect (m : PyModule) : List ℕ :=
  m.params.filterMap (fun np =>
    match np.2 with
    | some p => if np.1 = "bias" then none else some p
    | none => none)

/-- `[p for n, p in ... if p is not None and n == 'bias']`. -/
def nwdSelect (m : PyModule) : List ℕ :=
  m.params.filterMap (fun np =>
    match np.2 with
    | some p => if np.1 = "bias" then some p else none
    | none => none)

/-- `gpt2_get_params_for_weight_decay_optimization`, from the source: the
loop over `module.named_modules()` extends the two groups' `params` lists;
a module is given over `judge_name` filtering (commented out in the
source).  The first returned group has no `weight_decay` key, the second
has `weight_decay = 0.0`. -/
def gpt2_get_params_for_weight_decay_optimization (modules : List PyModule) :
    PyParamGroup × PyParamGroup :=
  let r := modules.foldl (fun acc m =>
    if m.isLayerNorm then (acc.1, acc.2 ++ lnSelect m)
    else (acc.1 ++ wdSelect m, acc.2 ++ nwdSelect m)) ([], [])
  (⟨r.1, none⟩, ⟨r.2, some 0⟩)

/-!
Numeric model of the model-parallel primitives.  The `mpu` package is part
of the repository but not among the provided sources, so its semantics are
modelled from the spec, over matrices of integers (`List (List ℤ)`, rows
are positions or vocabulary entries).
-/

/-- A vector of integers (one embedding row or one logit row). -/
abbrev Vec := List ℤ

/-- A matrix of integers, as a list of rows. -/
abbrev Mat := List (List ℤ)

/-- Elementwise addition of two vectors. -/
def vadd (v w : Vec) : Vec := List.zipWith (· + ·) v w

/-- Dot product of two vectors. -/
def dot (v w : Vec) : ℤ := (List.zipWith (· * ·) v w).sum

/-- Row `t` of a table (embedding lookup of one token). -/
def lookupRow (E : Mat) (t : ℕ) : Vec := E.getD t []

/-- Serial embedding lookup of a sequence of token ids. -/
def embedSeq (E : Mat) (ids : List ℕ) : Mat := ids.map (lookupRow E)

/-- Modelled from the spec: shard `r` of a table split along the vocabulary
dimension into `n` contiguous slices of `s` rows each ("an embedding table
split along the vocabulary dimension across parallel units"). -/
def shardTable (E : Mat) (s r : ℕ) : Mat := (E.drop (r * s)).take s

/-- Modelled from the spec: the shard-local output of the
vocabulary-sharded embedding (`mpu.VocabParallelEmbedding`) for one token —
shard `r` owns vocabulary rows `[r*s, r*s + s)`; it returns its row for an
owned token and a zero vector of the hidden dimension otherwise. -/
def vocabParallelEmbedLocal (E : Mat) (hdim s r t : ℕ) : Vec :=
  if r * s ≤ t ∧ t < r * s + s then lookupRow (shardTable E s r) (t - r * s)
  else List.replicate hdim 0

/-- Modelled from the spec: the all-reduce (elementwise sum across parallel
units) that completes the vocabulary-sharded embedding lookup. -/
def allReduce (hdim : ℕ) (vs : List Vec) : Vec :=
  vs.foldr vadd (List.replicate hdim 0)

/-- Modelled from the spec: the full output of the vocabulary-sharded
embedding for one token — the all-reduce of the `n` shard-local outputs. -/
def vocabParallelEmbedFull (E : Mat) (hdim s n t : ℕ) : Vec :=
  allReduce hdim ((List.range n).map (fun r => vocabParallelEmbedLocal E hdim s r t))

/-- `F.linear(x, W)` without bias: row `j` of the output holds the dot
products of input row `j` with every row of `W`. -/
def linearNoBias (W : Mat) (x : Mat) : Mat :=
  x.map (fun row => W.map (fun w => dot row w))

/-- The non-sharded (serial) reference forward pass holding the full
embedding table `E` and position table `P`: embedding lookup plus
positional lookup, then the (shared) dropout `D` and transformer `T`
functions, then the tied-weight projection to vocabulary logits. -/
def serialForward (E P : Mat) (D T : Mat → Mat) (ids pos : List ℕ) : Mat :=
  let emb := List.zipWith vadd (embedSeq E ids) (embedSeq P pos)
  linearNoBias E (T (D emb))

/-- Modelled from the spec: the forward pass of shard `r` of the sharded
model — the all-reduced vocabulary-sharded embedding plus the replicated
positional lookup, dropout `D`, transformer `T`, then the projection
against the shard's slice of the embedding table, giving the shard-local
logits over its vocabulary range. -/
def shardForward (E P : Mat) (D T : Mat → Mat) (hdim s n : ℕ)
    (ids pos : List ℕ) (r : ℕ) : Mat :=
  let emb := List.zipWith vadd (ids.map (vocabParallelEmbedFull E hdim s n))
    (embedSeq P pos)
  linearNoBias (shardTable E s r) (T (D emb))

/-- Modelled from the spec: `mpu.gather_from_model_parallel_region` —
concatenation of the shard outputs along the last (vocabulary) dimension,
row by row, for `m` rows. -/
def gatherRows (m : ℕ) (outs : List Mat) : Mat :=
  (List.range m).map (fun j => (outs.map (fun o => o.getD j [])).flatten)

/-- The sharded model run over all `n` parallel units with gathering
enabled: every shard computes its local logits and the gather concatenates
them along the vocabulary dimension. -/
def shardedGatheredForward (E P : Mat) (D T : Mat → Mat) (hdim s n : ℕ)
    (ids pos : List ℕ) : Mat :=
  let outs := (List.range n).map (shardForward E P D T hdim s n ids pos)
  gatherRows (outs.headD []).length outs

/-- Claim C1: for every input triple, `GPT2Model.forward` computes exactly
the composition — vocabulary-sharded embedding lookup of `input_ids`, plus
the replicated positional lookup of `position_ids`, then dropout, then the
transformer stack with `attention_mask`, then the copy to the
model-parallel region, then the linear projection to vocabulary logits,
then the optional all-gather — and nothing else: the produced expression is
that very term. -/
theorem GPT2Model_forward_is_exact_composition (m : GPT2Model)
    (input_ids position_ids attention_mask : TExpr) :
    m.forward input_ids position_ids attention_mask =
      (if m.parallel_output then
        TExpr.linearF
          (TExpr.copy_to_model_parallel_region
            (TExpr.transformer
              (TExpr.dropout
                (TExpr.add (TExpr.word_embeddings_lookup input_ids)
                  (TExpr.position_embeddings_lookup position_ids)))
              attention_mask))
          WeightRef.wordEmbeddingsWeight none
      else
        TExpr.gather_from_model_parallel_region
          (TExpr.linearF
            (TExpr.copy_to_model_parallel_region
              (TExpr.transformer
                (TExpr.dropout
                  (TExpr.add (TExpr.word_embeddings_lookup input_ids)
                    (TExpr.position_embeddings_lookup position_ids)))
                attention_mask))
            WeightRef.wordEmbeddingsWeight none)) := rfl

/-- Claim C3: the final projection of `GPT2Model` is tied to the
word-embedding table — the unique `F.linear` call in any forward result
uses exactly the `VocabParallelEmbedding` weight and passes no bias, no
`torch.nn.Linear` submodule is applied, and `__init__` assigns no separate
output-projection attribute beyond the four submodules and the flag. -/
theorem GPT2Model_tied_projection (m : GPT2Model) :
    linearFCalls (m.forward (TExpr.var "input_ids") (TExpr.var "position_ids")
        (TExpr.var "attention_mask"))
      = [(WeightRef.wordEmbeddingsWeight, none)] ∧
    denseLayerCalls (m.forward (TExpr.var "input_ids") (TExpr.var "position_ids")
        (TExpr.var "attention_mask")) = [] ∧
    GPT2Model.initStmts.filterMap (fun st => st.assigns)
      = ["parallel_output", "word_embeddings", "position_embeddings",
         "embedding_dropout", "transformer"] := by
  obtain ⟨a1, a2, a3, a4, a5, a6, a7, a8, a9, a10, po⟩ := m
  cases po <;> exact ⟨rfl, rfl, rfl⟩

/-- Claim C4: for both model variants, with `parallel_output` true the
shard-local logits are returned unchanged, with it false the result is
exactly `gather_from_model_parallel_region` of those same logits, and
nothing else differs between the two cases. -/
theorem parallel_output_flag_gathers_only (m : GPT2Model) (mc : GPT2Model_C)
    (i p a : TExpr) :
    ({ m with parallel_output := false } : GPT2Model).forward i p a
        = TExpr.gather_from_model_parallel_region
            (({ m with parallel_output := true } : GPT2Model).forward i p a) ∧
    ({ mc with parallel_output := false } : GPT2Model_C).forward i p a
        = TExpr.gather_from_model_parallel_region
            (({ mc with parallel_output := true } : GPT2Model_C).forward i p a) :=
  ⟨rfl, rfl⟩

/-- Claim C5: `GPT2Model_C.forward` replaces the tied vocabulary projection
with a pooling-plus-classification head: after the transformer stack (and
the region copy) it applies the hidden-to-hidden `linear` layer, then the
hidden-to-`num_labels` `classifier` layer, and returns those classification
logits (gathered when `parallel_output` is false); no `F.linear` projection
against the embedding weight occurs. -/
theorem GPT2Model_C_classification_head (mc : GPT2Model_C) (i p a : TExpr) :
    mc.forward i p a =
      (if mc.parallel_output then
        TExpr.denseLayer "classifier" mc.hidden_size mc.num_labels
          (TExpr.denseLayer "linear" mc.hidden_size mc.hidden_size
            (TExpr.copy_to_model_parallel_region
              (TExpr.transformer
                (TExpr.dropout
                  (TExpr.add (TExpr.word_embeddings_lookup i)
                    (TExpr.position_embeddings_lookup p)))
                a)))
      else
        TExpr.gather_from_model_parallel_region
          (TExpr.denseLayer "classifier" mc.hidden_size mc.num_labels
            (TExpr.denseLayer "linear" mc.hidden_size mc.hidden_size
              (TExpr.copy_to_model_parallel_region
                (TExpr.transformer
                  (TExpr.dropout
                    (TExpr.add (TExpr.word_embeddings_lookup i)
                      (TExpr.position_embeddings_lookup p)))
                  a))))) ∧
    linearFCalls (mc.forward (TExpr.var "input_ids") (TExpr.var "position_ids")
        (TExpr.var "attention_mask")) = [] := by
  obtain ⟨b1, b2, hs, nl, b3, b4, b5, b6, b7, b8, b9, po⟩ := mc
  cases po <;> exact ⟨rfl, rfl⟩

/-- Claim C8, counterexample: `num_labels` is a constructor parameter of
`GPT2Model_C` but is not among the constructor parameters the spec lists
(layer count, vocabulary size, hidden size, head count, dropout
probabilities, max sequence length, checkpointing flags, output-parallelism
flag), so the listed names do not cover every constructor parameter of both
model classes. -/
theorem ctor_surface_misses_num_labels :
    "num_labels" ∈ GPT2Model_C.initParamNames ∧
    "num_labels" ∉ specListedCtorParamNames := by decide

/-- Claim C8, amended: every constructor parameter of `GPT2Model` is one of
the listed ones; every constructor parameter of `GPT2Model_C` is one of the
listed ones except `num_labels` (the classification label count); and both
forward methods take exactly the three inputs `input_ids`, `position_ids`,
`attention_mask`. -/
theorem ctor_and_forward_surface :
    (∀ p ∈ GPT2Model.initParamNames, p ∈ specListedCtorParamNames) ∧
    (∀ p ∈ GPT2Model_C.initParamNames,
      p ∈ specListedCtorParamNames ∨ p = "num_labels") ∧
    GPT2Model.forwardParamNames = ["input_ids", "position_ids", "attention_mask"] ∧
    GPT2Model_C.forwardParamNames = ["input_ids", "position_ids", "attention_mask"] := by
  decide

/-- Claim C9: running the body of `GPT2Model_C.__init__` always raises an
`AttributeError` for `hidden_size`: the statement constructing
`self.linear` reads `self.hidden_size`, and no statement of the body ever
assigns that attribute, so no instance of `GPT2Model_C` is ever created. -/
theorem GPT2Model_C_init_raises_AttributeError :
    runInit [] GPT2Model_C.initStmts = Except.error "hidden_size" ∧
    ∀ st ∈ GPT2Model_C.initStmts, st.assigns ≠ some "hidden_size" :=
  ⟨rfl, by decide⟩

/-- Claim C7 (at its failing input): `GPT2Model.__init__` completes without
raising, but `GPT2Model_C.__init__` raises an `AttributeError` of this
module's own making — the read of the never-assigned `self.hidden_size` —
which is not a framework shape/type-mismatch check. -/
theorem GPT2Model_C_init_error_is_own :
    runInit [] GPT2Model.initStmts
        = Except.ok ["parallel_output", "word_embeddings",
            "position_embeddings", "embedding_dropout", "transformer"] ∧
    (runInit [] GPT2Model_C.initStmts).isOk = false :=
  ⟨rfl, rfl⟩

/-- The weight-decay side of the claimed partition condition: the non-None
parameters that belong to no `LayerNorm` submodule and are not named
`bias`. -/
def decaySelect (m : PyModule) : List ℕ :=
  m.params.filterMap (fun np =>
    match np.2 with
    | some p => if m.isLayerNorm ∨ np.1 = "bias" then none else some p
    | none => none)

/-- The no-weight-decay side of the claimed partition condition: the
non-None parameters that belong to a `LayerNorm` submodule or are named
`bias`. -/
def noDecaySelect (m : PyModule) : List ℕ :=
  m.params.filterMap (fun np =>
    match np.2 with
    | some p => if m.isLayerNorm ∨ np.1 = "bias" then some p else none
    | none => none)

theorem filterMap_funext {α β : Type} (l : List α) (f g : α → Option β)
    (h : ∀ a, f a = g a) : l.filterMap f = l.filterMap g := by
  rw [funext h]

theorem decaySelect_eq (m : PyModule) :
    (if m.isLayerNorm then [] else wdSelect m) = decaySelect m := by
  obtain ⟨ln, ps⟩ := m
  cases ln
  · show wdSelect ⟨false, ps⟩ = decaySelect ⟨false, ps⟩
    unfold wdSelect decaySelect
    refine filterMap_funext _ _ _ ?_
    rintro ⟨n, op⟩
    cases op <;> simp
  · show [] = decaySelect ⟨true, ps⟩
    unfold decaySelect
    induction ps with
    | nil => rfl
    | cons np t ih =>
      obtain ⟨n, op⟩ := np
      cases op <;> simpa using ih

theorem noDecaySelect_eq (m : PyModule) :
    (if m.isLayerNorm then lnSelect m else nwdSelect m) = noDecaySelect m := by
  obtain ⟨ln, ps⟩ := m
  cases ln
  · show nwdSelect ⟨false, ps⟩ = noDecaySelect ⟨false, ps⟩
    unfold nwdSelect noDecaySelect
    refine filterMap_funext _ _ _ ?_
    rintro ⟨n, op⟩
    cases op <;> simp
  · show lnSelect ⟨true, ps⟩ = noDecaySelect ⟨true, ps⟩
    unfold lnSelect noDecaySelect
    refine filterMap_funext _ _ _ ?_
    rintro ⟨n, op⟩
    cases op <;> simp

theorem foldl_groups_split (modules : List PyModule) (a b : List ℕ) :
    modules.foldl (fun acc m =>
      if m.isLayerNorm then (acc.1, acc.2 ++ lnSelect m)
      else (acc.1 ++ wdSelect m, acc.2 ++ nwdSelect m)) (a, b)
    = (a ++ modules.flatMap (fun m => if m.isLayerNorm then [] else wdSelect m),
       b ++ modules.flatMap
         (fun m => if m.isLayerNorm then lnSelect m else nwdSelect m)) := by
  induction modules generalizing a b with
  | nil => simp
  | cons m ms ih =>
    by_cases h : m.isLayerNorm = true <;>
      simp [h, ih, List.append_assoc]

theorem select_length (ln : Bool) (ps : List (String × Option ℕ)) :
    (decaySelect ⟨ln, ps⟩).length + (noDecaySelect ⟨ln, ps⟩).length
      = (lnSelect ⟨ln, ps⟩).length := by
  induction ps with
  | nil => rfl
  | cons np t ih =>
    obtain ⟨n, op⟩ := np
    cases op with
    | none =>
      simpa [decaySelect, noDecaySelect, lnSelect, List.filterMap_cons] using ih
    | some p =>
      by_cases h : (ln = true ∨ n = "bias") <;>
        · simp only [decaySelect, noDecaySelect, lnSelect,
            List.filterMap_cons] at ih ⊢
          simp [h] at ih ⊢
          omega

theorem flatMap_select_length (modules : List PyModule) :
    (modules.flatMap decaySelect).length + (modules.flatMap noDecaySelect).length
      = (modules.map (fun m => (lnSelect m).length)).sum := by
  induction modules with
  | nil => rfl
  | cons m ms ih =>
    obtain ⟨ln, ps⟩ := m
    have h := select_length ln ps
    simp only [List.flatMap_cons, List.map_cons, List.length_append,
      List.sum_cons]
    omega

/-- Claim C2: the two groups returned by
`gpt2_get_params_for_weight_decay_optimization` partition the non-None
parameters of the traversed submodules: the second group (which carries
`weight_decay = 0.0`; the first carries no such key) collects exactly the
non-None parameters that belong to a `LayerNorm` submodule or are named
`bias`, the first collects exactly the remaining non-None parameters, and
the group sizes add up to the total number of non-None parameter entries,
so each entry lands in exactly one group. -/
theorem gpt2_weight_decay_groups_partition (modules : List PyModule) :
    (gpt2_get_params_for_weight_decay_optimization modules).1.weight_decay
        = none ∧
    (gpt2_get_params_for_weight_decay_optimization modules).2.weight_decay
        = some 0 ∧
    (gpt2_get_params_for_weight_decay_optimization modules).1.params
        = modules.flatMap decaySelect ∧
    (gpt2_get_params_for_weight_decay_optimization modules).2.params
        = modules.flatMap noDecaySelect ∧
    (gpt2_get_params_for_weight_decay_optimization modules).1.params.length
        + (gpt2_get_params_for_weight_decay_optimization modules).2.params.length
        = (modules.map (fun m => (lnSelect m).length)).sum := by
  have hsplit := foldl_groups_split modules [] []
  have h1 : (gpt2_get_params_for_weight_decay_optimization modules).1.params
      = modules.flatMap decaySelect := by
    unfold gpt2_get_params_for_weight_decay_optimization
    rw [hsplit]
    simp only [List.nil_append]
    rw [List.flatMap_def, List.flatMap_def, List.map_congr_left
      (fun m _ => decaySelect_eq m)]
  have h2 : (gpt2_get_params_for_weight_decay_optimization modules).2.params
      = modules.flatMap noDecaySelect := by
    unfold gpt2_get_params_for_weight_decay_optimization
    rw [hsplit]
    simp only [List.nil_append]
    rw [List.flatMap_def, List.flatMap_def, List.map_congr_left
      (fun m _ => noDecaySelect_eq m)]
  refine ⟨rfl, rfl, h1, h2, ?_⟩
  rw [h1, h2]
  exact flatMap_select_length modules

/-- The ten decimal digit characters. -/
def digitChars : List Char :=
  ['0', '1', '2', '3', '4', '5', '6', '7', '8', '9']

theorem digit_has_single_str (c : Char) (hc : c ∈ digitChars) :
    ∃ i ∈ List.range 28, (toString i).toList = [c] := by
  fin_cases hc
  · exact ⟨0, by decide, by decide⟩
  · exact ⟨1, by decide, by decide⟩
  · exact ⟨2, by decide, by decide⟩
  · exact ⟨3, by decide, by decide⟩
  · exact ⟨4, by decide, by decide⟩
  · exact ⟨5, by decide, by decide⟩
  · exact ⟨6, by decide, by decide⟩
  · exact ⟨7, by decide, by decide⟩
  · exact ⟨8, by decide, by decide⟩
  · exact ⟨9, by decide, by decide⟩

/-- Claim C10: `judge_name` returns `True` exactly when the name contains
neither the substring `"embedding"` nor any decimal digit character — the
checked substrings `str(0)` … `str(27)` cover every single digit, so any
digit anywhere makes it return `False`. -/
theorem judge_name_iff (name : List Char) :
    judge_name name = true ↔
      (¬ ("embedding".toList <:+: name) ∧ ∀ c ∈ name, c ∉ digitChars) := by
  constructor
  · intro h
    simp [judge_name, pyIn] at h
    obtain ⟨h1, h2⟩ := h
    refine ⟨by simpa using h1, ?_⟩
    intro c hcmem hdig
    have hsingle : [c] <:+: name := by
      obtain ⟨s, t, rfl⟩ := List.append_of_mem hcmem
      exact ⟨s, t, by simp⟩
    obtain ⟨i, hi, hstr⟩ := digit_has_single_str c hdig
    refine h2 i (List.mem_range.mp hi) ?_
    rw [← hstr] at hsingle
    simpa using hsingle
  · rintro ⟨hemb, hnodig⟩
    simp [judge_name, pyIn]
    refine ⟨by simpa using hemb, ?_⟩
    intro i hi hinf
    have hdig : ∀ j < 28, ∃ c ∈ (toString j).toList, c ∈ digitChars := by
      decide
    obtain ⟨c, hc1, hc2⟩ := hdig i hi
    exact hnodig c (hinf.subset (by simpa using hc1)) hc2

theorem vadd_replicate_zero_right (v : Vec) :
    vadd v (List.replicate v.length 0) = v := by
  induction v with
  | nil => rfl
  | cons a t ih => simpa [vadd, List.replicate] using ih

theorem vadd_replicate_zero_left (v : Vec) :
    vadd (List.replicate v.length 0) v = v := by
  induction v with
  | nil => rfl
  | cons a t ih => simpa [vadd, List.replicate] using ih

theorem vadd_rep_rep (hdim : ℕ) :
    vadd (List.replicate hdim 0) (List.replicate hdim 0)
      = List.replicate hdim (0 : ℤ) := by
  unfold vadd
  rw [List.zipWith_replicate]
  simp

theorem foldr_vadd_zeros (hdim : ℕ) (l : List Vec)
    (h : ∀ v ∈ l, v = List.replicate hdim 0) :
    l.foldr vadd (List.replicate hdim 0) = List.replicate hdim 0 := by
  induction l with
  | nil => rfl
  | cons a t ih =>
    rw [List.foldr_cons, ih (fun v hv => h v (List.mem_cons_of_mem a hv)),
      h a (List.mem_cons_self a t), vadd_rep_rep]

theorem foldr_vadd_single (hdim : ℕ) (l : List ℕ) (g : ℕ → Vec) (r0 : ℕ)
    (v : Vec) (hv : v.length = hdim) (hcount : l.count r0 = 1)
    (hzero : ∀ r ∈ l, r ≠ r0 → g r = List.replicate hdim 0)
    (hg : g r0 = v) :
    (l.map g).foldr vadd (List.replicate hdim 0) = v := by
  induction l with
  | nil => simp at hcount
  | cons a t ih =>
    by_cases ha : a = r0
    · subst ha
      have hnot : a ∉ t := by
        rw [List.count_cons_self] at hcount
        exact List.count_eq_zero.mp (by omega)
      have hzt : ∀ w ∈ t.map g, w = List.replicate hdim 0 := by
        intro w hw
        obtain ⟨r, hr, rfl⟩ := List.mem_map.mp hw
        exact hzero r (List.mem_cons_of_mem a hr)
          (fun hre => hnot (hre ▸ hr))
      rw [List.map_cons, List.foldr_cons, foldr_vadd_zeros hdim _ hzt, hg,
        ← hv, vadd_replicate_zero_right]
    · have hga : g a = List.replicate hdim 0 :=
        hzero a (List.mem_cons_self a t) ha
      have hct : t.count r0 = 1 := by
        rw [List.count_cons] at hcount
        simpa [ha, Ne.symm ha] using hcount
      rw [List.map_cons, List.foldr_cons,
        ih hct (fun r hr => hzero r (List.mem_cons_of_mem a hr)), hga, ← hv,
        vadd_replicate_zero_left]

theorem vocabParallelEmbedFull_eq (E : Mat) (hdim s n t : ℕ)
    (hlen : E.length = n * s) (hrows : ∀ row ∈ E, row.length = hdim)
    (ht : t < n * s) :
    vocabParallelEmbedFull E hdim s n t = lookupRow E t := by
  have hs : 0 < s := by
    rcases Nat.eq_zero_or_pos s with h | h
    · subst h; simp at ht
    · exact h
  have htE : t < E.length := by rw [hlen]; exact ht
  have hr0n : t / s < n := (Nat.div_lt_iff_lt_mul hs).mpr ht
  have hle : t / s * s ≤ t := Nat.div_mul_le_self t s
  have hlt : t < t / s * s + s := by
    have h2 : t % s < s := Nat.mod_lt t hs
    have h3 : t / s * s + t % s = t := by
      rw [mul_comm]; exact Nat.div_add_mod t s
    omega
  have hat : vocabParallelEmbedLocal E hdim s (t / s) t = lookupRow E t := by
    unfold vocabParallelEmbedLocal
    rw [if_pos ⟨hle, hlt⟩]
    unfold lookupRow shardTable
    have hidx : t - t / s * s < ((E.drop (t / s * s)).take s).length := by
      rw [List.length_take, List.length_drop]
      omega
    rw [List.getD_eq_getElem _ _ hidx, List.getD_eq_getElem _ _ htE,
      List.getElem_take, List.getElem_drop]
    congr 1
    omega
  unfold vocabParallelEmbedFull allReduce
  refine foldr_vadd_single hdim (List.range n) _ (t / s) (lookupRow E t)
    ?_ ?_ ?_ hat
  · refine hrows _ ?_
    unfold lookupRow
    rw [List.getD_eq_getElem _ _ htE]
    exact List.getElem_mem htE
  · exact List.count_eq_one_of_mem (List.nodup_range n)
      (List.mem_range.mpr hr0n)
  · intro r hr hne
    unfold vocabParallelEmbedLocal
    rw [if_neg]
    rintro ⟨hge, hlt2⟩
    refine hne ?_
    have h4 : t / s = r :=
      Nat.div_eq_of_lt_le hge (by rw [Nat.succ_mul]; exact hlt2)
    exact h4.symm

theorem flatten_shardTable (s : ℕ) : ∀ (n : ℕ) (E : Mat),
    ((List.range n).map (fun r => shardTable E s r)).flatten
      = E.take (n * s) := by
  intro n
  induction n with
  | zero => intro E; simp
  | succ n ih =>
    intro E
    rw [List.range_succ_eq_map]
    simp only [List.map_cons, List.map_map, List.flatten_cons]
    have h1 : shardTable E s 0 = E.take s := by
      unfold shardTable; simp
    have h2 : (List.range n).map ((fun r => shardTable E s r) ∘ Nat.succ)
        = (List.range n).map (fun r => shardTable (E.drop s) s r) := by
      refine List.map_congr_left ?_
      intro r _
      show shardTable E s (r + 1) = shardTable (E.drop s) s r
      unfold shardTable
      rw [List.drop_drop]
      congr 2
      ring
    rw [h1, h2, ih, ← List.take_add]
    congr 1
    ring

theorem flatten_shard_map {β : Type} (E : Mat) (s n : ℕ)
    (hlen : E.length = n * s) (f : Vec → β) :
    ((List.range n).map (fun r => (shardTable E s r).map f)).flatten
      = E.map f := by
  have h1 : (List.range n).map (fun r => (shardTable E s r).map f)
      = ((List.range n).map (fun r => shardTable E s r)).map (List.map f) := by
    rw [List.map_map]
    rfl
  rw [h1, ← List.map_flatten, flatten_shardTable, ← hlen, List.take_length]

theorem linearNoBias_getD (W x : Mat) (j : ℕ) (hj : j < x.length) :
    (linearNoBias W x).getD j [] = W.map (fun w => dot (x.get ⟨j, hj⟩) w) := by
  unfold linearNoBias
  rw [List.getD_eq_getElem _ _ (by simpa using hj), List.getElem_map]
  rfl

theorem gather_linear_shards (E : Mat) (s n : ℕ) (h : Mat)
    (hlen : E.length = n * s) :
    gatherRows h.length
        ((List.range n).map (fun r => linearNoBias (shardTable E s r) h))
      = linearNoBias E h := by
  unfold gatherRows
  refine List.ext_getElem ?_ ?_
  · simp [linearNoBias]
  · intro j hj1 hj2
    have hj : j < h.length := by simpa using hj1
    simp only [List.getElem_map, List.getElem_range]
    rw [List.map_map]
    have hcomp : ((fun o => o.getD j ([] : Vec)) ∘
        (fun r => linearNoBias (shardTable E s r) h))
        = fun r => (shardTable E s r).map (fun w => dot (h.get ⟨j, hj⟩) w) := by
      funext r
      exact linearNoBias_getD _ _ j hj
    rw [hcomp, flatten_shard_map E s n hlen]
    unfold linearNoBias
    rw [List.getElem_map]
    rfl

/-- Claim C6: the sharded model is numerically consistent with the
non-sharded equivalent — for every input, the gathered logits of the model
run over `n` parallel units (each holding one vocabulary shard of the same
embedding table, with the same position table, dropout and transformer)
equal the logits of the serial model holding the full table.  Hypotheses:
at least one shard, the table splits evenly into `n` shards of `s` rows,
its rows have the hidden dimension, and every token id is in range. -/
theorem sharded_model_matches_serial (E P : Mat) (D T : Mat → Mat)
    (hdim s n : ℕ) (ids pos : List ℕ) (hn : 0 < n)
    (hlen : E.length = n * s) (hrows : ∀ row ∈ E, row.length = hdim)
    (hids : ∀ t ∈ ids, t < n * s) :
    shardedGatheredForward E P D T hdim s n ids pos
      = serialForward E P D T ids pos := by
  have hemb : ids.map (vocabParallelEmbedFull E hdim s n) = embedSeq E ids := by
    unfold embedSeq
    exact List.map_congr_left (fun t htmem =>
      vocabParallelEmbedFull_eq E hdim s n t hlen hrows (hids t htmem))
  have hsf : ∀ r, shardForward E P D T hdim s n ids pos r
      = linearNoBias (shardTable E s r)
          (T (D (List.zipWith vadd (embedSeq E ids) (embedSeq P pos)))) := by
    intro r
    unfold shardForward
    rw [hemb]
  unfold shardedGatheredForward serialForward
  have hmap : (List.range n).map (shardForward E P D T hdim s n ids pos)
      = (List.range n).map (fun r => linearNoBias (shardTable E s r)
          (T (D (List.zipWith vadd (embedSeq E ids) (embedSeq P pos))))) :=
    List.map_congr_left (fun r _ => hsf r)
  rw [hmap]
  obtain ⟨m, rfl⟩ : ∃ m, n = m + 1 := ⟨n - 1, by omega⟩
  have hhead : ((List.range (m + 1)).map
      (fun r => linearNoBias (shardTable E s r)
        (T (D (List.zipWith vadd (embedSeq E ids) (embedSeq P pos)))))).headD []
      = linearNoBias (shardTable E s 0)
          (T (D (List.zipWith vadd (embedSeq E ids) (embedSeq P pos)))) := by
    rw [List.range_succ_eq_map]
    simp
  dsimp only
  rw [hhead]
  have hlen0 : (linearNoBias (shardTable E s 0)
      (T (D (List.zipWith vadd (embedSeq E ids) (embedSeq P pos))))).length
      = (T (D (List.zipWith vadd (embedSeq E ids) (embedSeq P pos)))).length := by
    unfold linearNoBias
    rw [List.length_map]
  rw [hlen0]
  exact gather_linear_shards E s (m + 1) _ hlen

/-- Witness for C6: two shards of one vocabulary row each, hidden size 1,
identity dropout and transformer; the gathered sharded logits equal the
serial logits on a concrete input. -/
theorem sharded_model_matches_serial_witness :
    shardedGatheredForward [[3], [5]] [[7], [9]] id id 1 1 2 [1, 0] [0, 1]
      = serialForward [[3], [5]] [[7], [9]] id id [1, 0] [0, 1] :=
  sharded_model_matches_serial [[3], [5]] [[7], [9]] id id 1 1 2 [1, 0] [0, 1]
    (by decide) (by decide) (by decide) (by decide)
